import Mathlib

/-!
# Verification of the tick news/sentiment and support-resistance engine

Shallow embedding of the core numeric components of the repository
(`backend/agents/...`) in Lean 4, with theorems settling the frozen claims
about them.  Python floats are modelled by exact rationals (`ℚ`) where the
code performs only field operations and comparisons, and by reals (`ℝ`)
where it computes transcendental functions (`math.pow`, square roots).
Python strings are modelled by `String` / `List Char`, dictionaries with
known key sets by structures, and `None`-able values by `Option`.
-/

namespace Tick

/-! ## StrengthCalculator (scoring/strength_calculator.py)

`calculate_breakout_probability` reads `price`, `strength` and `type` from
the level dictionary and combines a distance factor, a strength factor and
a direction factor into a probability in `[0,100]`. -/

/-- A price level as consumed by `StrengthCalculator.calculate_breakout_probability`:
the `price`, `strength` (0-100) and `type` keys of the level dictionary. -/
structure BPLevel where
  price : ℚ
  strength : ℚ
  ltype : String

/-- The direction factor of `calculate_breakout_probability`
(strength_calculator.py lines 195-210): support → 1.0 if current price
below the level else 0.2; resistance → 1.0 if current price above the
level else 0.3; unknown type → 0.5. -/
def directionFactor (ltype : String) (levelPrice currentPrice : ℚ) : ℚ :=
  if ltype = "support" then
    if currentPrice < levelPrice then 1 else 1/5
  else if ltype = "resistance" then
    if currentPrice > levelPrice then 1 else 3/10
  else
    1/2

/-- Embedding of `StrengthCalculator.calculate_breakout_probability` (strength_calculator.py
lines 151-229): zero for a level at price 0, otherwise
`clamp₀¹⁰⁰(100·(0.4·distanceFactor + 0.3·strengthFactor + 0.3·directionFactor))`
with `distanceFactor = clamp₀¹(1 − 10·|current−price|/price)` and
`strengthFactor = 1 − strength/100`. -/
def calculateBreakoutProbability (level : BPLevel) (currentPrice : ℚ) : ℚ :=
  if level.price = 0 then 0
  else
    let priceDistance := |currentPrice - level.price| / level.price
    let distanceF := max 0 (min 1 (1 - priceDistance * 10))
    let strengthF := 1 - level.strength / 100
    let directionF := directionFactor level.ltype level.price currentPrice
    let prob := (distanceF * (4/10) + strengthF * (3/10) + directionF * (3/10)) * 100
    max 0 (min 100 prob)

/-! ## SupportResistanceAgent.detect_levels, data-sufficiency gate (agent.py)

`detect_levels` loads bars for a lookback window (custom or per-timeframe
default), errors on an empty dataset, and errors with an insufficient-data
message when fewer bars than a minimum requirement were loaded. -/

/-- One OHLCV bar as loaded by `DataLoader` (utils/data_loader.py): the
rows of the dataframe, positionally indexed after `reset_index(drop=True)`. -/
structure Bar where
  op : ℚ
  high : ℚ
  low : ℚ
  close : ℚ
  volume : ℚ

/-- Default lookback days per timeframe (agent.py lines 228-240, with the
730-day fallback for unknown timeframes). -/
def timeframeDaysMap (timeframe : String) : ℕ :=
  if timeframe = "1m" then 30
  else if timeframe = "5m" then 30
  else if timeframe = "15m" then 30
  else if timeframe = "30m" then 30
  else if timeframe = "1h" then 90
  else if timeframe = "4h" then 90
  else if timeframe = "1d" then 730
  else if timeframe = "1w" then 1095
  else if timeframe = "1mo" then 1825
  else if timeframe = "1y" then 3650
  else 730

/-- Minimum number of bars required by `detect_levels` (agent.py lines
258-266).  For daily data `max(50, int(lookback * 0.6))`; Python's
`int(n * 0.6)` on a nonnegative integer `n` equals `⌊3n/5⌋` (the float
product `n * 0.6` always rounds to the exact value when `3n/5` is an
integer, and the error is otherwise far smaller than the distance to the
next integer), embedded as natural division `3 * n / 5`.  For the other
timeframes `max(30, min(50, lookback))`. -/
def minRequiredBars (timeframe : String) (lookbackDays : ℕ) : ℕ :=
  if timeframe = "1d" then max 50 (3 * lookbackDays / 5)
  else max 30 (min 50 lookbackDays)

/-- Outcome of the data-loading gate at the top of `detect_levels`. -/
inductive DataGateResult where
  | noData
  | insufficientData
  | proceed
  deriving DecidableEq

/-- The data-sufficiency gate of `detect_levels` (agent.py lines 221-275):
resolve the lookback (custom if given, else the per-timeframe default),
report an empty dataset as a no-data error, report fewer than
`minRequiredBars` bars as an insufficient-data error, else proceed. -/
def detectLevelsDataGate (timeframe : String) (lookbackDays : Option ℕ)
    (bars : List Bar) : DataGateResult :=
  let actualLookback := lookbackDays.getD (timeframeDaysMap timeframe)
  if bars.length = 0 then .noData
  else if bars.length < minRequiredBars timeframe actualLookback then .insufficientData
  else .proceed

/-- Following the words of claim C3: the minimum bar requirement would be
`max(50, 0.6·lookback)` for timeframe "1d" and `min(50, lookback)` for
every other timeframe. -/
def claimedMinRequiredBars (timeframe : String) (lookbackDays : ℕ) : ℚ :=
  if timeframe = "1d" then max 50 ((6/10 : ℚ) * lookbackDays)
  else min 50 (lookbackDays : ℚ)

/-- A fixed bar used to build concrete datasets in witnesses. -/
def sampleBar : Bar := ⟨100, 101, 99, 100, 1000⟩

/-! ## LevelValidator (detection/level_validator.py)

Level dictionaries flowing through validation carry the clustering output
(`price`, `type`, `touches`, first/last touch) and the validation keys the
validator writes (`validated`, `validation_rate`, `reaction_count`,
`touch_count`).  Timestamps are modelled as rational time coordinates. -/

/-- A support/resistance level dictionary. -/
structure SRLevel where
  price : ℚ
  ltype : String
  touches : ℕ
  firstTouch : Option ℚ
  lastTouch : Option ℚ
  validated : Bool
  validation_rate : ℚ
  reaction_count : ℕ
  touch_count : ℕ
  deriving DecidableEq

/-- The bar used for out-of-range positional access (never reached on the
in-bounds indices produced by `findTouches`). -/
def dummyBar : Bar := ⟨0, 0, 0, 0, 0⟩

/-- Embedding of `LevelValidator._find_touches` (level_validator.py lines 172-203): the
positional indices of all bars whose low or high lies within
`tolerance · levelPrice` of the level. -/
def findTouches (levelPrice : ℚ) (bars : List Bar) (tolerance : ℚ) : List ℕ :=
  let toleranceAmount := levelPrice * tolerance
  (bars.enum.filter (fun ib =>
    decide (|ib.2.low - levelPrice| ≤ toleranceAmount) ||
      decide (|ib.2.high - levelPrice| ≤ toleranceAmount))).map Prod.fst

/-- Embedding of `LevelValidator._check_reaction` (level_validator.py lines 205-262):
false when the touch is within `lookforward` bars of the end of the data;
otherwise true iff some of the next `lookforward` bars has a high above
`touchPrice · 1.01` (support) or a low below `touchPrice · 0.99`
(resistance), with the touch price read from the touched bar's low
respectively high. -/
def checkReaction (lookforward : ℕ) (touchIdx : ℕ) (levelType : String)
    (bars : List Bar) : Bool :=
  if bars.length ≤ touchIdx + lookforward then false
  else
    let endIdx := min (touchIdx + lookforward + 1) bars.length
    let futureRows := (bars.drop (touchIdx + 1)).take (endIdx - (touchIdx + 1))
    if futureRows.length = 0 then false
    else if levelType = "support" then
      let touchPrice := (bars.getD touchIdx dummyBar).low
      futureRows.any (fun b => decide (b.high > touchPrice * (101/100)))
    else if levelType = "resistance" then
      let touchPrice := (bars.getD touchIdx dummyBar).high
      futureRows.any (fun b => decide (b.low < touchPrice * (99/100)))
    else false

/-- Python's extended slice `l[::step]` for a positive step: every
`step`-th element starting from the first. -/
def everyNth (l : List α) (step : ℕ) : List α :=
  (l.enum.filter (fun p => p.1 % step == 0)).map Prod.snd

/-- The touch-sampling rule of `validate_level` (level_validator.py lines
92-100): with more than 50 touches, take `touches[::len(touches)//50][:50]`. -/
def sampleTouches (touches : List ℕ) : List ℕ :=
  if touches.length > 50 then
    (everyNth touches (touches.length / 50)).take 50
  else touches

/-- Embedding of `LevelValidator.validate_level` (level_validator.py lines 53-137).
The scaled reaction count `int(reaction_count * (touch_count /
sampled_touches))` is embedded as the rational floor
`reaction_count * touch_count / sampled_touches` (the float product differs
from the exact one by far less than the spacing of the integers involved
except in immaterial borderline cases; no claim depends on this field). -/
def validateLevel (tolerance : ℚ) (lookforward : ℕ) (level : SRLevel)
    (bars : List Bar) : SRLevel :=
  let touches := findTouches level.price bars tolerance
  if touches.isEmpty then
    { level with validated := false,
                 reaction_count := 0,
                 touch_count := 0,
                 validation_rate := 0 }
  else
    let touchesToCheck := sampleTouches touches
    let reactions := touchesToCheck.map
      (fun i => checkReaction lookforward i level.ltype bars)
    let sampledTouches := touchesToCheck.length
    let reactionCount := reactions.count true
    let touchCount := touches.length
    let scaledReactionCount :=
      if sampledTouches > 0 then reactionCount * touchCount / sampledTouches else 0
    let validationRate :=
      if sampledTouches > 0 then (reactionCount : ℚ) / sampledTouches else 0
    { level with
      validated := decide (validationRate > 1/2),
      reaction_count := scaledReactionCount,
      touch_count := touchCount,
      validation_rate := validationRate }

/-- Embedding of `LevelValidator.validate_levels` (level_validator.py lines 139-170). -/
def validateLevels (tolerance : ℚ) (lookforward : ℕ) (levels : List SRLevel)
    (bars : List Bar) : List SRLevel :=
  levels.map (fun level => validateLevel tolerance lookforward level bars)

/-! ## SupportResistanceAgent.detect_levels, validation step (agent.py lines 308-344)

Step 4 of `detect_levels`: for more than 200 bars validation is skipped and
default validation values are written; otherwise only the top levels by
touch count are validated and the results merged back by price. -/

/-- The default validation values written by the skip-validation fast path
(agent.py lines 315-322). -/
def setSkipValidationDefaults (l : SRLevel) : SRLevel :=
  { l with validated := false,
           validation_rate := 1/2,
           reaction_count := l.touches / 2,
           touch_count := l.touches }

/-- Stable insertion of `a` in front of the first element with a key not
above its own (descending order). -/
def insertDescBy {κ : Type*} [LinearOrder κ] (key : α → κ) (a : α) :
    List α → List α
  | [] => [a]
  | b :: bs => if key b ≤ key a then a :: b :: bs else b :: insertDescBy key a bs

/-- A stable descending sort by key, modelling Python's stable
`sorted(..., key=..., reverse=True)`. -/
def sortDescBy {κ : Type*} [LinearOrder κ] (key : α → κ) : List α → List α
  | [] => []
  | a :: as => insertDescBy key a (sortDescBy key as)

/-- The per-side merge of validated levels back into the full level list
(agent.py lines 335-344): a dictionary keyed by price (later entries
overwrite earlier ones) is consulted for each level; levels not found get
default validation values. -/
def mergeValidated (validated : List SRLevel) (l : SRLevel) : SRLevel :=
  ((validated.reverse.find? (fun v => v.price == l.price)).getD
    { l with validated := false,
             validation_rate := 0,
             reaction_count := 0,
             touch_count := l.touches })

/-- The validation step of `detect_levels` (agent.py lines 308-344): with
more than 200 bars, write default validation values on every level; else
validate the top `min(10, total)/2` levels per side (by touch count) and
merge the results back by price. -/
def applyValidationStep (tolerance : ℚ) (lookforward : ℕ)
    (resistanceLevels supportLevels : List SRLevel) (bars : List Bar) :
    List SRLevel × List SRLevel :=
  let dataSize := bars.length
  if dataSize > 200 then
    (resistanceLevels.map setSkipValidationDefaults,
      supportLevels.map setSkipValidationDefaults)
  else
    let maxLevelsToValidate :=
      min 10 (resistanceLevels.length + supportLevels.length)
    let resistanceToValidate :=
      (sortDescBy (fun l => l.touches) resistanceLevels).take (maxLevelsToValidate / 2)
    let supportToValidate :=
      (sortDescBy (fun l => l.touches) supportLevels).take (maxLevelsToValidate / 2)
    let validatedResistance := validateLevels tolerance lookforward resistanceToValidate bars
    let validatedSupport := validateLevels tolerance lookforward supportToValidate bars
    (resistanceLevels.map (mergeValidated validatedResistance),
      supportLevels.map (mergeValidated validatedSupport))

/-! ## ImpactScorer (sentiment_aggregator/aggregation/impact_scorer.py)

`calculate_impact` accumulates an impact score from sentiment strength,
news volume, recency and confidence, then classifies it against the
configured thresholds (defaults 0.7 / 0.4 with news-count floors 10 / 5). -/

/-- Embedding of `ImpactScorer.calculate_impact` (impact_scorer.py lines 51-115),
parametrised by the configured thresholds; the defaults are
`high_impact_threshold = 0.7`, `medium_impact_threshold = 0.4`,
`min_news_count_high = 10`, `min_news_count_medium = 5`. -/
def calculateImpact (highThreshold mediumThreshold : ℚ)
    (minNewsHigh minNewsMedium : ℕ) (aggregatedSentiment : ℚ) (newsCount : ℕ)
    (recency confidence : Option ℚ) : String :=
  let sentimentStrength := |aggregatedSentiment|
  let score₀ : ℚ := 0
  let score₁ := score₀ + sentimentStrength * (4/10)
  let volumeScore := min ((newsCount : ℚ) / 20) 1
  let score₂ := score₁ + volumeScore * (3/10)
  let score₃ := match recency with
    | some r => score₂ + r * (2/10)
    | none => score₂ + 15/100
  let impactScore := match confidence with
    | some c => score₃ + c * (1/10)
    | none => score₃ + 5/100
  if impactScore ≥ highThreshold ∧ newsCount ≥ minNewsHigh then "High"
  else if impactScore ≥ mediumThreshold ∧ newsCount ≥ minNewsMedium then "Medium"
  else "Low"

/-! ## DuplicateFilter (news_fetch_agent/filters/duplicate_filter.py)

Articles carry `url`, `title`, `source`, `content` and `summary`; absent
keys are modelled by the empty string, matching the `get(..., "")`
defaults and Python's falsiness checks. -/

/-- A news article as consumed by the duplicate filter. -/
structure Article where
  url : String
  title : String
  source : String
  content : String
  summary : String
  deriving DecidableEq

/-- Modelled from the spec: `_calculate_similarity` delegates to the Python
standard library's `difflib.SequenceMatcher.ratio`, which is not part of
the repository; the spec (§4.3) describes it as "a normalised
longest-common-subsequence ratio on lowercased strings", i.e.
`2·LCS(s₁,s₂) / (|s₁|+|s₂|)`.  This is the longest-common-subsequence
length. -/
def lcsLength : List Char → List Char → ℕ
  | [], _ => 0
  | _ :: _, [] => 0
  | a :: as, b :: bs =>
    if a = b then 1 + lcsLength as bs
    else max (lcsLength (a :: as) bs) (lcsLength as (b :: bs))
termination_by l₁ l₂ => l₁.length + l₂.length
decreasing_by
  all_goals simp
  all_goals omega

/-- Modelled from the spec: `DuplicateFilter._calculate_similarity`
(duplicate_filter.py lines 51-70) — the normalised similarity ratio of the
two lowercased strings (1 for two empty strings, as
`SequenceMatcher.ratio` returns). -/
def calculateSimilarity (text1 text2 : String) : ℚ :=
  let s1 := text1.toList.map Char.toLower
  let s2 := text2.toList.map Char.toLower
  if s1.length + s2.length = 0 then 1
  else (2 * lcsLength s1 s2 : ℚ) / ((s1.length + s2.length : ℕ) : ℚ)

/-- Embedding of `DuplicateFilter._is_duplicate` (duplicate_filter.py lines
72-110): articles are duplicates on an exact match of nonempty URLs, or a
title similarity at least `titleThreshold` (nonempty titles), or a
content/summary similarity at least `contentThreshold` (with `summary`
substituted for an empty `content`). -/
def isDuplicate (titleThreshold contentThreshold : ℚ)
    (article1 article2 : Article) : Bool :=
  if article1.url ≠ "" ∧ article2.url ≠ "" ∧ article1.url = article2.url then
    true
  else if article1.title ≠ "" ∧ article2.title ≠ "" ∧
      calculateSimilarity article1.title article2.title ≥ titleThreshold then
    true
  else
    let content1 := if article1.content ≠ "" then article1.content else article1.summary
    let content2 := if article2.content ≠ "" then article2.content else article2.summary
    if content1 ≠ "" ∧ content2 ≠ "" ∧
        calculateSimilarity content1 content2 ≥ contentThreshold then
      true
    else false

/-- The preferred-source replacement test of `remove_duplicates`
(duplicate_filter.py line 156): a configured, truthy `prefer_source`
matching the article's source. -/
def prefersArticle (preferSource : Option String) (a : Article) : Bool :=
  match preferSource with
  | some s => s ≠ "" && a.source == s
  | none => false

/-- The traversal loop of `DuplicateFilter.remove_duplicates`
(duplicate_filter.py lines 140-165): each article is compared against the
already-kept list; the first kept duplicate is replaced when the article
comes from the preferred source, otherwise the article is dropped;
non-duplicates are appended. -/
def removeDuplicatesGo (preferSource : Option String)
    (titleThreshold contentThreshold : ℚ) (acc : List Article) :
    List Article → List Article
  | [] => acc
  | a :: rest =>
    match acc.findIdx? (fun u => isDuplicate titleThreshold contentThreshold a u) with
    | none =>
      removeDuplicatesGo preferSource titleThreshold contentThreshold (acc ++ [a]) rest
    | some j =>
      let acc' := if prefersArticle preferSource a then acc.set j a else acc
      removeDuplicatesGo preferSource titleThreshold contentThreshold acc' rest

/-- Embedding of `DuplicateFilter.remove_duplicates` (duplicate_filter.py
lines 112-165); the default thresholds are 0.9 (title) and 0.85
(content). -/
def removeDuplicates (preferSource : Option String)
    (titleThreshold contentThreshold : ℚ) (articles : List Article) :
    List Article :=
  removeDuplicatesGo preferSource titleThreshold contentThreshold [] articles

/-! ## RelevanceFilter (news_fetch_agent/filters/relevance_filter.py)

Keyword matching is case-insensitive substring containment; strings are
lowercased/uppercased character-wise (ASCII suffices for the keyword
table). -/

/-- Python's substring test `needle in haystack` on character lists (an
empty needle is contained in everything). -/
def containsSub (needle : List Char) (haystack : List Char) : Bool :=
  needle.isPrefixOf haystack ||
    (match haystack with
     | [] => false
     | _ :: t => containsSub needle t)

/-- Python's `str.lower()`, as a character list. -/
def lowerStr (s : String) : List Char := s.toList.map Char.toLower

/-- Python's `str.upper()`, as a character list. -/
def upperStr (s : String) : List Char := s.toList.map Char.toUpper

/-- Python's `str.upper()`, as a string. -/
def stringUpper (s : String) : String := String.mk (s.toList.map Char.toUpper)

/-- The `COMPANY_NAMES` keyword table of `RelevanceFilter`
(relevance_filter.py lines 37-68), as a lookup with default `[]`. -/
def companyNames (symbol : String) : List String :=
  if symbol = "AAPL" then ["Apple", "Apple Inc", "Apple Inc.", "iPhone", "iPad", "MacBook", "iMac", "iOS", "macOS"]
  else if symbol = "MSFT" then ["Microsoft", "Microsoft Corp", "Windows", "Azure", "Office", "Xbox", "Surface"]
  else if symbol = "GOOGL" then ["Google", "Alphabet", "Alphabet Inc", "YouTube", "Android", "Chrome", "Gmail", "Google Cloud"]
  else if symbol = "GOOG" then ["Google", "Alphabet", "Alphabet Inc", "YouTube", "Android", "Chrome", "Gmail", "Google Cloud"]
  else if symbol = "AMZN" then ["Amazon", "Amazon.com", "AWS", "Alexa", "Prime"]
  else if symbol = "META" then ["Meta", "Facebook", "Instagram", "WhatsApp", "Oculus", "VR"]
  else if symbol = "NVDA" then ["NVIDIA", "Nvidia", "GeForce", "RTX", "CUDA"]
  else if symbol = "TSLA" then ["Tesla", "Tesla Inc", "Model S", "Model 3", "Model X", "Model Y", "Cybertruck"]
  else if symbol = "NFLX" then ["Netflix", "Netflix Inc", "streaming"]
  else if symbol = "INTC" then ["Intel", "Intel Corp", "Core i7", "Core i9", "Xeon"]
  else if symbol = "XOM" then ["Exxon Mobil", "Exxon", "ExxonMobil", "Mobil"]
  else if symbol = "CVX" then ["Chevron", "Chevron Corp", "Chevron Corporation"]
  else if symbol = "SLB" then ["Schlumberger", "Schlumberger Limited"]
  else if symbol = "COP" then ["ConocoPhillips", "Conoco Phillips"]
  else if symbol = "EOG" then ["EOG Resources", "EOG"]
  else if symbol = "JNJ" then ["Johnson & Johnson", "J&J", "Johnson and Johnson"]
  else if symbol = "PFE" then ["Pfizer", "Pfizer Inc", "Comirnaty"]
  else if symbol = "UNH" then ["UnitedHealth", "UnitedHealth Group", "United Healthcare"]
  else if symbol = "ABBV" then ["AbbVie", "Abbvie"]
  else if symbol = "TMO" then ["Thermo Fisher", "Thermo Fisher Scientific"]
  else if symbol = "JPM" then ["JPMorgan", "JPMorgan Chase", "JP Morgan", "Chase Bank"]
  else if symbol = "BAC" then ["Bank of America", "BofA", "Merrill Lynch"]
  else if symbol = "GS" then ["Goldman Sachs", "Goldman"]
  else if symbol = "MS" then ["Morgan Stanley"]
  else if symbol = "WFC" then ["Wells Fargo", "Wells Fargo Bank"]
  else if symbol = "WMT" then ["Walmart", "Walmart Inc"]
  else if symbol = "PG" then ["Procter & Gamble", "P&G", "Procter and Gamble"]
  else if symbol = "KO" then ["Coca-Cola", "Coke"]
  else if symbol = "PEP" then ["PepsiCo", "Pepsi"]
  else if symbol = "MCD" then ["McDonald's", "McDonalds"]
  else []

/-- Embedding of `RelevanceFilter._get_keywords` (relevance_filter.py lines
87-100): the upper-cased symbol followed by its company-name aliases. -/
def getKeywords (symbol : String) : List String :=
  stringUpper symbol :: companyNames (stringUpper symbol)

/-- Embedding of `RelevanceFilter._count_matches` (relevance_filter.py
lines 102-163): the weighted keyword-match score of one text field. -/
def countMatches (text : String) (keywords : List String) : ℚ :=
  if text = "" then 0
  else
    let textLower := lowerStr text
    let primaryKeywords := keywords.take 2
    let secondaryKeywords := keywords.drop 2
    let primaryMatches := (primaryKeywords.filter
      (fun k => containsSub (lowerStr k) textLower)).length
    let primaryScore₀ : ℚ := (6/10) * primaryMatches
    let primaryScore :=
      if primaryKeywords ≠ [] then
        let p := min (primaryScore₀ / primaryKeywords.length) 1
        if primaryMatches ≥ 2 then min (p * (14/10)) 1 else p
      else primaryScore₀
    let secondaryScore : ℚ :=
      if secondaryKeywords ≠ [] then
        let uniqueSecondaryMatches := (secondaryKeywords.filter
          (fun k => containsSub (lowerStr k) textLower)).length
        min ((uniqueSecondaryMatches : ℚ) / (max secondaryKeywords.length 1) * (5/10))
          (5/10)
      else 0
    let totalScore₀ := primaryScore * (7/10) + secondaryScore * (3/10)
    let uniqueMatches := (keywords.filter
      (fun k => containsSub (lowerStr k) textLower)).length
    let totalScore₁ :=
      if uniqueMatches ≥ 2 then min (totalScore₀ * (15/10)) 1
      else if uniqueMatches ≥ 1 then min (totalScore₀ * (12/10)) 1
      else totalScore₀
    let totalScore₂ := if uniqueMatches > 0 then max totalScore₁ (3/10) else totalScore₁
    min totalScore₂ 1

/-- Embedding of `RelevanceFilter.calculate_relevance` (relevance_filter.py
lines 165-240): field scores are combined with title/content/summary
weights, boosted for title and content mentions, floored at 0.35 when any
keyword occurs anywhere, and clamped to `[0,1]`. -/
def calculateRelevance (article : Article) (symbol : String) : ℚ :=
  let keywords := getKeywords symbol
  if keywords = [] then 0
  else
    let title := article.title
    let content := article.content
    let summary := article.summary
    let titleScore := countMatches title keywords
    let contentScore := countMatches content keywords
    let summaryScore := countMatches summary keywords
    let finalScore₀ :=
      if summary ≠ "" then
        titleScore * (5/10) + contentScore * (3/10) + summaryScore * (2/10)
      else
        titleScore * (6/10) + contentScore * (4/10)
    let finalScore₁ :=
      if containsSub (upperStr symbol) (upperStr title) then
        min (finalScore₀ * (18/10)) 1
      else if (keywords.take 3).any (fun k => containsSub (lowerStr k) (lowerStr title)) then
        min (finalScore₀ * (15/10)) 1
      else finalScore₀
    let finalScore₂ :=
      if (keywords.take 2).any (fun k => containsSub (lowerStr k) (lowerStr content)) then
        min (finalScore₁ * (12/10)) 1
      else finalScore₁
    let finalScore₃ :=
      if keywords.any (fun k =>
          containsSub (lowerStr k) (lowerStr (title ++ content ++ summary))) then
        max finalScore₂ (35/100)
      else finalScore₂
    min (max finalScore₃ 0) 1

/-! ## TimeWeightedAggregator (sentiment_aggregator/aggregation/time_weighted.py)

Article times are modelled as real-valued hour coordinates (the code works
in hours after dividing `total_seconds()` by 3600); `math.pow(0.5, x)` is
the real power `(1/2)^x`.  A timestamp string is either parseable to a
time or unparseable, in which case `_parse_datetime` falls back to the
current time. -/

/-- A timestamp string as classified by `_parse_datetime`
(time_weighted.py lines 125-151). -/
inductive TStamp where
  | parsed (t : ℝ)
  | unparseable

/-- Embedding of `TimeWeightedAggregator._parse_datetime`: the parsed time,
or the current time for an unparseable string. -/
def parseDatetime : TStamp → ℝ → ℝ
  | .parsed t, _ => t
  | .unparseable, now => now

/-- A sentiment score as consumed by `aggregate`: the optional
`processed_at` timestamp, the article's optional `published_at` and
`processed_at` fallbacks, the sentiment value and the confidence. -/
structure SentScore where
  processed_at : Option TStamp
  articlePublishedAt : Option TStamp
  articleProcessedAt : Option TStamp
  sentiment_score : ℝ
  confidence : ℝ

/-- Embedding of `TimeWeightedAggregator._calculate_time_weight`
(time_weighted.py lines 51-83): 0 beyond the maximum age, else the decayed
weight clamped to `[0,1]`. -/
noncomputable def timeWeight (decayType : String) (halfLifeHours maxAgeHours : ℝ)
    (ageHours : ℝ) : ℝ :=
  if ageHours > maxAgeHours then 0
  else
    let weight :=
      if decayType = "exponential" then (1/2 : ℝ) ^ (ageHours / halfLifeHours)
      else 1 - ageHours / maxAgeHours
    max 0 (min 1 weight)

/-- The timestamp chain of `aggregate` (time_weighted.py lines 208-214):
`processed_at`, else the article's `published_at`, else the article's
`processed_at`. -/
def effectiveStamp (s : SentScore) : Option TStamp :=
  s.processed_at.orElse (fun _ =>
    s.articlePublishedAt.orElse (fun _ => s.articleProcessedAt))

/-- The per-score weight computed by the loop of `aggregate`
(time_weighted.py lines 208-229): the time weight of the parsed timestamp's
age, or exactly 1.0 when no timestamp is available. -/
noncomputable def scoreWeight (decayType : String) (halfLifeHours maxAgeHours now : ℝ)
    (s : SentScore) : ℝ :=
  match effectiveStamp s with
  | some ts => timeWeight decayType halfLifeHours maxAgeHours (now - parseDatetime ts now)
  | none => 1

/-- The parsed article time of a score (current time for unparseable or
missing stamps); only used beneath hypotheses that pin the stamp down. -/
def parsedTime (s : SentScore) (now : ℝ) : ℝ :=
  match effectiveStamp s with
  | some ts => parseDatetime ts now
  | none => now

/-- The result dictionary of `aggregate` (the empty-input branch carries no
`total_weight` key in the code; it is modelled as 0). -/
structure AggResult where
  aggregated_sentiment : ℝ
  sentiment_label : String
  confidence : ℝ
  news_count : ℕ
  time_weighted : Bool
  weights_applied : List ℝ
  total_weight : ℝ

/-- Embedding of `TimeWeightedAggregator.aggregate` (time_weighted.py lines
153-257): neutral defaults on empty input; otherwise time weights per
score, weighted averages of sentiment and confidence (falling back to
plain means when the total weight is zero), and the threshold label. -/
noncomputable def aggregate (decayType : String) (halfLifeHours maxAgeHours : ℝ)
    (scores : List SentScore) (now : ℝ) : AggResult :=
  match scores with
  | [] => ⟨0, "neutral", 0, 0, true, [], 0⟩
  | s₀ :: rest =>
    let all := s₀ :: rest
    let weights := all.map (scoreWeight decayType halfLifeHours maxAgeHours now)
    let weightedSentiments := all.map (fun s =>
      s.sentiment_score * scoreWeight decayType halfLifeHours maxAgeHours now s)
    let weightedConfidences := all.map (fun s =>
      s.confidence * scoreWeight decayType halfLifeHours maxAgeHours now s)
    let totalWeight := weights.sum
    let aggregatedSentiment :=
      if totalWeight = 0 then (all.map SentScore.sentiment_score).sum / all.length
      else weightedSentiments.sum / totalWeight
    let aggregatedConfidence :=
      if totalWeight = 0 then (all.map SentScore.confidence).sum / all.length
      else weightedConfidences.sum / totalWeight
    let label :=
      if aggregatedSentiment > 3/10 then "positive"
      else if aggregatedSentiment < -(3/10) then "negative"
      else "neutral"
    ⟨aggregatedSentiment, label, aggregatedConfidence, all.length, true, weights,
      totalWeight⟩

/-- Embedding of `TimeWeightedAggregator._adjust_for_horizon`
(time_weighted.py lines 85-123), applied to the default construction
(half-life 24h, max age 168h): the pair (half-life, max age) in hours. -/
noncomputable def adjustForHorizon (timeHorizon : String) : ℝ × ℝ :=
  let th := timeHorizon.toLower.trim
  if th = "1s" ∨ th = "1m" then (1/10, 1/2)
  else if th = "1h" then (2, 6)
  else if th = "1d" then (24, 72)
  else if th = "1w" then (72, 168)
  else if th = "1mo" then (168, 720)
  else if th = "1y" then (720, 8760)
  else (24, 168)

/-- Following the words of claim C4 (and spec §4.6): the *unclamped* weight
`0.5^(A/halfLife)` for age `A ≤ maxAge` and 0 otherwise. -/
noncomputable def claimedWeight (halfLifeHours maxAgeHours ageHours : ℝ) : ℝ :=
  if ageHours ≤ maxAgeHours then (1/2 : ℝ) ^ (ageHours / halfLifeHours) else 0

/-! ## VectorStore and semantic-cache lookup (llm_sentiment_agent/cache/)

Embeddings are real vectors; the external sentence-transformer that
produces them is out of scope, so the query's embedding is taken as given
(exactly as the claim does).  Metadata stored by `SemanticCache.store`
always carries the sentiment fields, so a stored entry is modelled as the
triple of id, embedding and sentiment metadata. -/

/-- The sentiment metadata stored with each cache entry
(semantic_cache.py lines 204-213). -/
structure CacheMeta where
  sentiment_score : ℝ
  sentiment_label : String
  confidence : ℝ
  reasoning : String

/-- An entry of the vector store: `article_id → (embedding, metadata)`. -/
structure CacheEntry where
  articleId : String
  embedding : List ℝ
  meta : CacheMeta

/-- The result of `LLMSentimentAgent.analyze_sentiment` restricted to the
fields the claim is about. -/
structure AnalyzeResult where
  sentiment_score : ℝ
  sentiment_label : String
  confidence : ℝ
  cached : Bool
  deriving Inhabited

/-- `np.dot` of two vectors. -/
noncomputable def dotProduct (v w : List ℝ) : ℝ :=
  (List.zipWith (fun a b => a * b) v w).sum

/-- `np.linalg.norm`: the Euclidean norm. -/
noncomputable def l2norm (v : List ℝ) : ℝ :=
  Real.sqrt ((v.map (fun x => x ^ 2)).sum)

/-- The epsilon-smoothed normalisation `vec / (np.linalg.norm(vec) + 1e-8)`
of `VectorStore.search` (vector_store.py lines 104-110). -/
noncomputable def normalizeVec (v : List ℝ) : List ℝ :=
  v.map (fun x => x / (l2norm v + 1/100000000))

/-- The candidate pass of `VectorStore.search` (vector_store.py lines
107-120): every stored entry whose smoothed cosine similarity with the
normalised query reaches the threshold, in store order. -/
noncomputable def searchCandidates (store : List CacheEntry) (query : List ℝ)
    (threshold : ℝ) : List (String × ℝ × CacheMeta) :=
  let queryVec := normalizeVec query
  store.filterMap (fun e =>
    let similarity := dotProduct queryVec (normalizeVec e.embedding)
    if similarity ≥ threshold then some (e.articleId, similarity, e.meta) else none)

/-- Embedding of `VectorStore.search` (vector_store.py lines 81-126):
empty-store short-circuit, candidate collection, stable sort by similarity
descending, and truncation to `top_k`. -/
noncomputable def search (store : List CacheEntry) (query : List ℝ) (topK : ℕ)
    (threshold : ℝ) : List (String × ℝ × CacheMeta) :=
  if store.isEmpty then []
  else (sortDescBy (fun c => c.2.1) (searchCandidates store query threshold)).take topK

/-- Embedding of `SemanticCache.get_similar` (semantic_cache.py lines
140-181): the top-1 search result's metadata (entries written by `store`
always carry `sentiment_score`, so the metadata check always passes). -/
noncomputable def getSimilar (threshold : ℝ) (store : List CacheEntry)
    (queryEmbedding : List ℝ) : Option CacheMeta :=
  match search store queryEmbedding 1 threshold with
  | [] => none
  | (_, _, meta) :: _ => some meta

/-- Embedding of the cache path of `LLMSentimentAgent.analyze_sentiment`
(agent.py lines 218-259): with the cache enabled, a similar stored entry
is returned with `cached = true`; otherwise the LLM result is returned
with `cached = false` (and stored — a state change irrelevant here).  The
default similarity threshold is 0.85. -/
noncomputable def analyzeArticle (cacheEnabled : Bool) (threshold : ℝ)
    (store : List CacheEntry) (queryEmbedding : List ℝ) (llmResult : CacheMeta) :
    AnalyzeResult :=
  if cacheEnabled then
    match getSimilar threshold store queryEmbedding with
    | some meta => ⟨meta.sentiment_score, meta.sentiment_label, meta.confidence, true⟩
    | none =>
      ⟨llmResult.sentiment_score, llmResult.sentiment_label, llmResult.confidence,
        false⟩
  else
    ⟨llmResult.sentiment_score, llmResult.sentiment_label, llmResult.confidence,
      false⟩

end Tick

namespace Tick

/-! ### Theorems for C1 -/

/-- C1, counterexample: a support level at price 100 with strength 50,
compared against current prices 110 (level strictly below the current
price) and 90 (level strictly above it) — the relative price distance is
1/10 in both cases.  Contrary to the claim, the level below the current
price receives the *smaller* direction contribution (0.2 versus 1.0) and
the smaller breakout probability (21 versus 45). -/
theorem C1_direction_counterexample :
    directionFactor "support" 100 110 < directionFactor "support" 100 90 ∧
    calculateBreakoutProbability ⟨100, 50, "support"⟩ 110 = 21 ∧
    calculateBreakoutProbability ⟨100, 50, "support"⟩ 90 = 45 ∧
    ¬ (calculateBreakoutProbability ⟨100, 50, "support"⟩ 110 >
        calculateBreakoutProbability ⟨100, 50, "support"⟩ 90) := by
  refine ⟨by norm_num [directionFactor], ?_, ?_, ?_⟩ <;>
    norm_num [calculateBreakoutProbability, directionFactor, abs_of_nonneg,
      abs_of_nonpos]

/-- The direction factor is always one of 1, 1/5, 3/10, 1/2; in particular
it lies in `[1/5, 1]`. -/
lemma directionFactor_bounds (ltype : String) (p c : ℚ) :
    1/5 ≤ directionFactor ltype p c ∧ directionFactor ltype p c ≤ 1 := by
  unfold directionFactor
  split_ifs <;> norm_num

/-- For a level with positive price, strength in `[0,100]` and current
price distinct from the level price, the clamps of
`calculate_breakout_probability` are inactive and the probability is the
plain weighted sum. -/
lemma calculateBreakoutProbability_eq_unclamped (p c s : ℚ) (ty : String)
    (hp : 0 < p) (hs₀ : 0 ≤ s) (hs₁ : s ≤ 100) (hne : c ≠ p) :
    calculateBreakoutProbability ⟨p, s, ty⟩ c =
      max 0 (min 1 (1 - (|c - p| / p) * 10)) * 40 + (1 - s / 100) * 30 +
        directionFactor ty p c * 30 := by
  obtain ⟨hd₀, hd₁⟩ := directionFactor_bounds ty p c
  simp only [calculateBreakoutProbability]
  rw [if_neg hp.ne']
  have hpd : (0 : ℚ) < |c - p| / p :=
    div_pos (abs_pos.mpr (sub_ne_zero.mpr hne)) hp
  set pd := |c - p| / p with hpd_def
  set dF := max 0 (min 1 (1 - pd * 10)) with hdF
  have hdF₀ : 0 ≤ dF := le_max_left _ _
  have hdF₁ : dF < 1 := by
    rcases le_or_lt (1 - pd * 10) 0 with h | h
    · have hm : min 1 (1 - pd * 10) ≤ 0 := le_trans (min_le_right _ _) h
      rw [hdF, max_eq_left hm]
      norm_num
    · have h1 : (1 : ℚ) - pd * 10 < 1 := by linarith
      rw [hdF, min_eq_right h1.le, max_eq_right h.le]
      exact h1
  set dir := directionFactor ty p c with hdir
  have hlow : (0 : ℚ) <
      (dF * (4/10) + (1 - s/100) * (3/10) + dir * (3/10)) * 100 := by nlinarith
  have hhigh : (dF * (4/10) + (1 - s/100) * (3/10) + dir * (3/10)) * 100 < 100 := by
    nlinarith
  rw [min_eq_right hhigh.le, max_eq_right hlow.le]
  ring

/-- C1, amended: `calculate_breakout_probability` always returns a value in
`[0,100]`; and, holding strength (in `[0,100]`) and the relative price
distance fixed, a support level strictly *above* the current price receives
a higher direction contribution (1.0 versus 0.2) and a strictly higher
breakout probability than a support level strictly below it; symmetrically
a resistance level strictly *below* the current price receives a higher
direction contribution (1.0 versus 0.3) and a strictly higher breakout
probability than one strictly above it. -/
theorem C1_breakout_probability_range_and_direction :
    (∀ (level : BPLevel) (currentPrice : ℚ),
      0 ≤ calculateBreakoutProbability level currentPrice ∧
        calculateBreakoutProbability level currentPrice ≤ 100) ∧
    (∀ (p₁ p₂ c₁ c₂ s : ℚ), 0 < p₁ → 0 < p₂ → 0 ≤ s → s ≤ 100 →
      c₁ < p₁ → p₂ < c₂ → |c₁ - p₁| / p₁ = |c₂ - p₂| / p₂ →
      directionFactor "support" p₂ c₂ < directionFactor "support" p₁ c₁ ∧
        calculateBreakoutProbability ⟨p₂, s, "support"⟩ c₂ <
          calculateBreakoutProbability ⟨p₁, s, "support"⟩ c₁) ∧
    (∀ (p₁ p₂ c₁ c₂ s : ℚ), 0 < p₁ → 0 < p₂ → 0 ≤ s → s ≤ 100 →
      p₁ < c₁ → c₂ < p₂ → |c₁ - p₁| / p₁ = |c₂ - p₂| / p₂ →
      directionFactor "resistance" p₂ c₂ < directionFactor "resistance" p₁ c₁ ∧
        calculateBreakoutProbability ⟨p₂, s, "resistance"⟩ c₂ <
          calculateBreakoutProbability ⟨p₁, s, "resistance"⟩ c₁) := by
  refine ⟨?_, ?_, ?_⟩
  · intro level currentPrice
    unfold calculateBreakoutProbability
    split
    · norm_num
    · constructor
      · exact le_max_left 0 _
      · exact max_le (by norm_num) (min_le_left 100 _)
  · intro p₁ p₂ c₁ c₂ s hp₁ hp₂ hs₀ hs₁ hc₁ hc₂ hdist
    have hd₁ : directionFactor "support" p₁ c₁ = 1 := by
      simp [directionFactor, hc₁]
    have hd₂ : directionFactor "support" p₂ c₂ = 1/5 := by
      simp [directionFactor, not_lt.mpr (le_of_lt hc₂)]
    refine ⟨by rw [hd₁, hd₂]; norm_num, ?_⟩
    rw [calculateBreakoutProbability_eq_unclamped p₁ c₁ s "support" hp₁ hs₀ hs₁
      (ne_of_lt hc₁),
      calculateBreakoutProbability_eq_unclamped p₂ c₂ s "support" hp₂ hs₀ hs₁
      (ne_of_gt hc₂), hd₁, hd₂, hdist]
    linarith
  · intro p₁ p₂ c₁ c₂ s hp₁ hp₂ hs₀ hs₁ hc₁ hc₂ hdist
    have hd₁ : directionFactor "resistance" p₁ c₁ = 1 := by
      simp [directionFactor, hc₁]
    have hd₂ : directionFactor "resistance" p₂ c₂ = 3/10 := by
      simp [directionFactor, not_lt.mpr (le_of_lt hc₂)]
    refine ⟨by rw [hd₁, hd₂]; norm_num, ?_⟩
    rw [calculateBreakoutProbability_eq_unclamped p₁ c₁ s "resistance" hp₁ hs₀ hs₁
      (ne_of_gt hc₁),
      calculateBreakoutProbability_eq_unclamped p₂ c₂ s "resistance" hp₂ hs₀ hs₁
      (ne_of_lt hc₂), hd₁, hd₂, hdist]
    linarith

/-- C1, witness: the amended direction statement applied to a support level
at price 100 with strength 50 and current prices 90 (level above) versus
110 (level below). -/
theorem C1_breakout_probability_witness :
    (0:ℚ) < 100 ∧
    calculateBreakoutProbability ⟨100, 50, "support"⟩ 110 <
      calculateBreakoutProbability ⟨100, 50, "support"⟩ 90 :=
  ⟨by norm_num,
    (C1_breakout_probability_range_and_direction.2.1 100 100 90 110 50
      (by norm_num) (by norm_num) (by norm_num) (by norm_num)
      (by norm_num) (by norm_num) (by norm_num)).2⟩

/-! ### Theorems for C2 -/

/-- C2: whenever the loaded dataset has more than 200 bars, the validation
step of `detect_levels` takes the skip-validation fast path: every
clustered resistance and support level is returned with exactly the default
validation values written, and in particular every one of them carries
`validation_rate = 0.5` and `validated = false` going into strength
scoring. -/
theorem C2_skip_validation_over_200_bars (tolerance : ℚ) (lookforward : ℕ)
    (resistanceLevels supportLevels : List SRLevel) (bars : List Bar)
    (h : bars.length > 200) :
    applyValidationStep tolerance lookforward resistanceLevels supportLevels bars =
      (resistanceLevels.map setSkipValidationDefaults,
        supportLevels.map setSkipValidationDefaults) ∧
    ∀ l ∈ (applyValidationStep tolerance lookforward resistanceLevels
            supportLevels bars).1 ++
          (applyValidationStep tolerance lookforward resistanceLevels
            supportLevels bars).2,
      l.validated = false ∧ l.validation_rate = 1/2 := by
  have heq : applyValidationStep tolerance lookforward resistanceLevels
      supportLevels bars =
      (resistanceLevels.map setSkipValidationDefaults,
        supportLevels.map setSkipValidationDefaults) := by
    unfold applyValidationStep
    rw [if_pos h]
  refine ⟨heq, ?_⟩
  intro l hl
  rw [heq] at hl
  simp only [List.mem_append, List.mem_map] at hl
  rcases hl with ⟨x, _, rfl⟩ | ⟨x, _, rfl⟩ <;> exact ⟨rfl, rfl⟩

/-- C2, witness: the fast path on a 201-bar dataset with one resistance and
one support level. -/
theorem C2_skip_validation_witness :
    (List.replicate 201 sampleBar).length > 200 ∧
    ∀ l ∈ (applyValidationStep (1/200) 5 [⟨105, "resistance", 4, none, none, false, 0, 0, 0⟩]
            [⟨95, "support", 3, none, none, false, 0, 0, 0⟩]
            (List.replicate 201 sampleBar)).1 ++
          (applyValidationStep (1/200) 5 [⟨105, "resistance", 4, none, none, false, 0, 0, 0⟩]
            [⟨95, "support", 3, none, none, false, 0, 0, 0⟩]
            (List.replicate 201 sampleBar)).2,
      l.validated = false ∧ l.validation_rate = 1/2 :=
  ⟨by simp only [List.length_replicate]; norm_num,
    (C2_skip_validation_over_200_bars (1/200) 5 _ _ _
      (by simp only [List.length_replicate]; norm_num)).2⟩

/-! ### Theorems for C9 -/

/-- A touch within `lookforward` bars of the end of the data never reacts:
the guard at the top of `_check_reaction`. -/
lemma checkReaction_near_end (lookforward touchIdx : ℕ) (levelType : String)
    (bars : List Bar) (h : bars.length ≤ touchIdx + lookforward) :
    checkReaction lookforward touchIdx levelType bars = false := by
  unfold checkReaction
  rw [if_pos h]

/-- Counting `true` over a mapped boolean list is counting the satisfying
elements. -/
lemma count_true_map (f : α → Bool) (l : List α) :
    (l.map f).count true = l.countP f := by
  induction l with
  | nil => rfl
  | cons a t ih =>
    simp only [List.map_cons, List.count_cons, List.countP_cons, ih]
    cases h : f a <;> simp [h]

/-- Elements failing `q` never satisfy `p`, so counting `p` can be done on
the `q`-filtered list. -/
lemma countP_eq_countP_filter (p q : α → Bool) (l : List α)
    (h : ∀ a ∈ l, p a = true → q a = true) :
    l.countP p = (l.filter q).countP p := by
  induction l with
  | nil => rfl
  | cons a t ih =>
    have ih' := ih (fun x hx hp => h x (List.mem_cons_of_mem a hx) hp)
    by_cases hq : q a = true
    · simp only [List.filter_cons, hq, if_true, List.countP_cons, ih']
    · have hp : p a = false := by
        cases hpa : p a
        · rfl
        · exact absurd (h a (List.mem_cons_self a t) hpa) hq
      simp only [List.filter_cons, hq, if_false, List.countP_cons, hp, ih']
      simp

/-- Sampling a nonempty touch list yields a nonempty sample (the first
touch is always retained by the extended slice). -/
lemma sampleTouches_ne_nil {l : List ℕ} (h : l ≠ []) : sampleTouches l ≠ [] := by
  unfold sampleTouches
  split
  · cases l with
    | nil => exact absurd rfl h
    | cons a t =>
      simp [everyNth, List.enum, List.enumFrom, List.filter]
  · exact h

/-- C9: in `validate_level`, every sampled touch lying within
`lookforward_bars` of the end of the bar series is counted as a failed
reaction — `_check_reaction` returns false for it while it stays in the
sampled denominator.  The validation rate therefore equals the reaction
count over the far-from-end sampled touches divided by the *full* sample
size, which never exceeds (and in particular never beats) the rate
computed over the far-from-end touches alone. -/
theorem C9_end_touches_only_lower_validation_rate (tolerance : ℚ)
    (lookforward : ℕ) (level : SRLevel) (bars : List Bar)
    (htouch : findTouches level.price bars tolerance ≠ []) :
    (∀ i ∈ sampleTouches (findTouches level.price bars tolerance),
        bars.length ≤ i + lookforward →
        checkReaction lookforward i level.ltype bars = false) ∧
    (validateLevel tolerance lookforward level bars).validation_rate =
      (((sampleTouches (findTouches level.price bars tolerance)).filter
            (fun i => decide (i + lookforward < bars.length))).countP
          (fun i => checkReaction lookforward i level.ltype bars) : ℚ) /
        (sampleTouches (findTouches level.price bars tolerance)).length ∧
    ((sampleTouches (findTouches level.price bars tolerance)).filter
        (fun i => decide (i + lookforward < bars.length)) ≠ [] →
      (validateLevel tolerance lookforward level bars).validation_rate ≤
        (((sampleTouches (findTouches level.price bars tolerance)).filter
              (fun i => decide (i + lookforward < bars.length))).countP
            (fun i => checkReaction lookforward i level.ltype bars) : ℚ) /
          ((sampleTouches (findTouches level.price bars tolerance)).filter
            (fun i => decide (i + lookforward < bars.length))).length) := by
  set touches := findTouches level.price bars tolerance with htdef
  set S := sampleTouches touches with hSdef
  set far : ℕ → Bool := fun i => decide (i + lookforward < bars.length) with hfar
  set check : ℕ → Bool := fun i => checkReaction lookforward i level.ltype bars
    with hcheck
  have hfail : ∀ i ∈ S, bars.length ≤ i + lookforward →
      checkReaction lookforward i level.ltype bars = false :=
    fun i _ h => checkReaction_near_end lookforward i level.ltype bars h
  have hSne : S ≠ [] := sampleTouches_ne_nil htouch
  have hSlen : 0 < S.length := List.length_pos.mpr hSne
  have hcount : S.countP check = (S.filter far).countP check := by
    refine countP_eq_countP_filter check far S (fun i hi hp => ?_)
    rw [hfar]
    simp only [decide_eq_true_eq]
    by_contra hge
    rw [hcheck] at hp
    simp only at hp
    rw [hfail i hi (by omega)] at hp
    exact Bool.false_ne_true hp
  have hrate : (validateLevel tolerance lookforward level bars).validation_rate =
      ((S.filter far).countP check : ℚ) / S.length := by
    have hne : touches.isEmpty = false := by
      cases h : touches
      · exact absurd h htouch
      · rfl
    simp only [validateLevel, ← htdef, hne, Bool.false_eq_true, if_false, ← hSdef]
    rw [if_pos hSlen, count_true_map, ← hcheck, hcount]
  refine ⟨hfail, hrate, fun hFne => ?_⟩
  rw [hrate]
  have hFlen : 0 < ((S.filter far).length : ℚ) := by
    exact_mod_cast List.length_pos.mpr hFne
  have hle : ((S.filter far).length : ℚ) ≤ (S.length : ℚ) := by
    exact_mod_cast List.length_filter_le far S
  have hR : (0 : ℚ) ≤ ((S.filter far).countP check : ℚ) := by positivity
  gcongr

/-- C9, witness: a support level at price 99 over three bars (all touching
at the low), with every touch within 5 bars of the end of the data. -/
theorem C9_end_touches_witness :
    findTouches (99 : ℚ) (List.replicate 3 sampleBar) (1/200) ≠ [] ∧
    (validateLevel (1/200) 5 ⟨99, "support", 3, none, none, false, 0, 0, 0⟩
        (List.replicate 3 sampleBar)).validation_rate =
      (((sampleTouches (findTouches (99 : ℚ) (List.replicate 3 sampleBar)
              (1/200))).filter
            (fun i => decide (i + 5 < (List.replicate 3 sampleBar).length))).countP
          (fun i => checkReaction 5 i "support" (List.replicate 3 sampleBar)) : ℚ) /
        (sampleTouches (findTouches (99 : ℚ) (List.replicate 3 sampleBar)
          (1/200))).length := by
  have ht : findTouches (99 : ℚ) (List.replicate 3 sampleBar) (1/200) = [0, 1, 2] := by
    norm_num [findTouches, sampleBar, List.replicate, List.enum, List.enumFrom,
      List.filter, abs_of_nonneg, abs_of_nonpos]
  exact ⟨ht ▸ List.cons_ne_nil 0 [1, 2],
    (C9_end_touches_only_lower_validation_rate (1/200) 5
      ⟨99, "support", 3, none, none, false, 0, 0, 0⟩
      (List.replicate 3 sampleBar) (ht ▸ List.cons_ne_nil 0 [1, 2])).2.1⟩

/-! ### Theorems for C6 -/

/-- Inserting into a list never yields the empty list. -/
lemma insertDescBy_ne_nil {κ : Type*} [LinearOrder κ] (key : α → κ) (a : α)
    (l : List α) : insertDescBy key a l ≠ [] := by
  cases l with
  | nil => simp [insertDescBy]
  | cons b bs =>
    unfold insertDescBy
    split <;> simp

/-- Sorting a nonempty list yields a nonempty list. -/
lemma sortDescBy_ne_nil {κ : Type*} [LinearOrder κ] (key : α → κ)
    {l : List α} (h : l ≠ []) : sortDescBy key l ≠ [] := by
  cases l with
  | nil => exact absurd rfl h
  | cons a as => exact insertDescBy_ne_nil key a _

/-- The smoothed cosine similarity of a vector with itself: scaling both
sides by `1/c` divides the dot product by `c²` (also for `c = 0`, with
division by zero read as zero). -/
lemma dotProduct_map_div_self (q : List ℝ) (c : ℝ) :
    dotProduct (q.map (fun x => x / c)) (q.map (fun x => x / c)) =
      dotProduct q q / c ^ 2 := by
  induction q with
  | nil => simp [dotProduct]
  | cons x t ih =>
    simp only [List.map_cons, dotProduct, List.zipWith_cons_cons, List.sum_cons]
      at ih ⊢
    rw [ih, div_mul_div_comm, ← pow_two, ← pow_two, div_add_div_same]

/-- C6, counterexample: an entry whose embedding is the nonzero vector
`[10⁻⁸]`, queried with the *identical* embedding, is a cache MISS: the
epsilon-smoothed cosine similarity is `(10⁻⁸)²/(10⁻⁸+10⁻⁸)² = 1/4 < 0.85`,
so `analyze_sentiment` returns `cached = false` instead of the claimed
cached values. -/
theorem C6_identical_tiny_embedding_counterexample :
    dotProduct (normalizeVec [(1/100000000 : ℝ)])
        (normalizeVec [(1/100000000 : ℝ)]) = 1/4 ∧
    (analyzeArticle true (85/100)
        [CacheEntry.mk "a1" [(1/100000000 : ℝ)]
          (CacheMeta.mk (1/2) "positive" (9/10) "r")]
        [(1/100000000 : ℝ)] (CacheMeta.mk 0 "neutral" (7/10) "fresh")).cached =
      false := by
  have hnorm : l2norm [(1/100000000 : ℝ)] = 1/100000000 := by
    unfold l2norm
    simp only [List.map_cons, List.map_nil, List.sum_cons, List.sum_nil, add_zero]
    rw [Real.sqrt_sq (by norm_num)]
  have hdot : dotProduct (normalizeVec [(1/100000000 : ℝ)])
      (normalizeVec [(1/100000000 : ℝ)]) = 1/4 := by
    unfold normalizeVec
    rw [dotProduct_map_div_self, hnorm]
    unfold dotProduct
    simp only [List.zipWith_cons_cons, List.zipWith_nil_right, List.sum_cons,
      List.sum_nil, add_zero]
    norm_num
  refine ⟨hdot, ?_⟩
  have hcand : searchCandidates
      [CacheEntry.mk "a1" [(1/100000000 : ℝ)]
        (CacheMeta.mk (1/2) "positive" (9/10) "r")]
      [(1/100000000 : ℝ)] (85/100) = [] := by
    unfold searchCandidates
    simp only [List.filterMap_cons, List.filterMap_nil]
    rw [if_neg (by rw [hdot]; norm_num)]
  unfold analyzeArticle getSimilar search
  rw [if_pos rfl]
  simp only [List.isEmpty_cons, Bool.false_eq_true, if_false, hcand]
  rfl

/-- C6, amended: if the cache is enabled and the vector store contains an
entry whose embedding is identical to the query's, and the embedding is
large enough for the epsilon-smoothed self-similarity to reach the 0.85
default threshold (`0.85·(‖q‖+10⁻⁸)² ≤ q·q`, true whenever
`‖q‖ ≥ 1.2·10⁻⁷`), then analyzing the article returns `cached = true`;
when that entry is moreover the *only* stored entry, the returned
sentiment score, label and confidence are exactly its stored values. -/
theorem C6_identical_embedding_cache_hit (store : List CacheEntry)
    (e : CacheEntry) (q : List ℝ) (llmResult : CacheMeta)
    (he : e ∈ store) (heq : e.embedding = q)
    (hbig : (85/100 : ℝ) * (l2norm q + 1/100000000) ^ 2 ≤ dotProduct q q) :
    (analyzeArticle true (85/100) store q llmResult).cached = true ∧
    (store = [e] →
      analyzeArticle true (85/100) store q llmResult =
        ⟨e.meta.sentiment_score, e.meta.sentiment_label, e.meta.confidence,
          true⟩) := by
  have hc : (0:ℝ) < (l2norm q + 1/100000000) ^ 2 := by
    have h0 : (0:ℝ) ≤ l2norm q := Real.sqrt_nonneg _
    positivity
  have hsimval : dotProduct (normalizeVec q) (normalizeVec e.embedding) ≥
      85/100 := by
    rw [heq]
    unfold normalizeVec
    rw [dotProduct_map_div_self, ge_iff_le, le_div_iff₀ hc]
    linarith
  have hmem : (e.articleId,
      dotProduct (normalizeVec q) (normalizeVec e.embedding), e.meta) ∈
      searchCandidates store q (85/100) := by
    unfold searchCandidates
    refine List.mem_filterMap.mpr ⟨e, he, ?_⟩
    rw [if_pos hsimval]
  have hne : searchCandidates store q (85/100) ≠ [] := List.ne_nil_of_mem hmem
  have hstore : store.isEmpty = false := by
    cases store
    · simp at he
    · rfl
  have hsearch : search store q 1 (85/100) ≠ [] := by
    unfold search
    rw [hstore]
    simp only [Bool.false_eq_true, if_false]
    have hs := sortDescBy_ne_nil (fun c => c.2.1) hne
    cases hsort : sortDescBy (fun c => c.2.1) (searchCandidates store q (85/100)) with
    | nil => exact absurd hsort hs
    | cons c cs => simp
  constructor
  · unfold analyzeArticle getSimilar
    rw [if_pos rfl]
    cases hsr : search store q 1 (85/100) with
    | nil => exact absurd hsr hsearch
    | cons c cs => rfl
  · intro hsingle
    subst hsingle
    have hcand : searchCandidates [e] q (85/100) =
        [(e.articleId, dotProduct (normalizeVec q) (normalizeVec e.embedding),
          e.meta)] := by
      unfold searchCandidates
      simp only [List.filterMap_cons, List.filterMap_nil]
      rw [if_pos hsimval]
    unfold analyzeArticle getSimilar search
    rw [if_pos rfl]
    simp only [List.isEmpty_cons, Bool.false_eq_true, if_false, hcand]
    rfl

/-- C6, witness: a unit-norm embedding `[3/5, 4/5]` stored and queried
identically is a cache hit returning `cached = true`. -/
theorem C6_cache_hit_witness :
    (CacheEntry.mk "a1" [(3/5 : ℝ), 4/5] (CacheMeta.mk (1/2) "positive" (9/10) "r")) ∈
        [CacheEntry.mk "a1" [(3/5 : ℝ), 4/5] (CacheMeta.mk (1/2) "positive" (9/10) "r")] ∧
    (analyzeArticle true (85/100)
        [CacheEntry.mk "a1" [(3/5 : ℝ), 4/5] (CacheMeta.mk (1/2) "positive" (9/10) "r")]
        [(3/5 : ℝ), 4/5] (CacheMeta.mk 0 "neutral" (7/10) "fresh")).cached = true := by
  have hl2 : l2norm [(3/5 : ℝ), 4/5] = 1 := by
    unfold l2norm
    rw [show (([(3/5 : ℝ), 4/5].map (fun x => x ^ 2)).sum : ℝ) = 1 by
      simp only [List.map_cons, List.map_nil, List.sum_cons, List.sum_nil]
      norm_num]
    exact Real.sqrt_one
  have hdot : dotProduct [(3/5 : ℝ), 4/5] [(3/5 : ℝ), 4/5] = 1 := by
    unfold dotProduct
    simp only [List.zipWith_cons_cons, List.zipWith_nil_right, List.sum_cons,
      List.sum_nil]
    norm_num
  refine ⟨by simp, ?_⟩
  refine (C6_identical_embedding_cache_hit
    [CacheEntry.mk "a1" [(3/5 : ℝ), 4/5] (CacheMeta.mk (1/2) "positive" (9/10) "r")]
    (CacheEntry.mk "a1" [(3/5 : ℝ), 4/5] (CacheMeta.mk (1/2) "positive" (9/10) "r"))
    [(3/5 : ℝ), 4/5] (CacheMeta.mk 0 "neutral" (7/10) "fresh")
    (by simp) rfl ?_).1
  rw [hl2, hdot]
  norm_num

/-! ### Theorems for C4 and C10 -/

/-- The amended claim's weight (C4): the clamped decayed weight
`min(1, 0.5^(A/halfLife))` for age `A ≤ maxAge` and 0 otherwise. -/
noncomputable def amendedWeight (halfLifeHours maxAgeHours ageHours : ℝ) : ℝ :=
  if ageHours ≤ maxAgeHours then
    min 1 ((1/2 : ℝ) ^ (ageHours / halfLifeHours))
  else 0

/-- In exponential mode the clamp of `_calculate_time_weight` only caps the
weight at 1 (the power is never negative). -/
lemma timeWeight_exponential_eq (hl ma age : ℝ) :
    timeWeight "exponential" hl ma age = amendedWeight hl ma age := by
  unfold timeWeight amendedWeight
  by_cases h : age > ma
  · rw [if_pos h, if_neg (not_le.mpr h)]
  · rw [if_neg h, if_pos (not_lt.mp h)]
    simp only [reduceIte]
    rw [max_eq_right (le_min zero_le_one (Real.rpow_nonneg (by norm_num) _))]

/-- Every horizon adjustment yields a positive maximum age. -/
lemma adjustForHorizon_maxAge_pos (h : String) : 0 < (adjustForHorizon h).2 := by
  simp only [adjustForHorizon]
  split_ifs <;> norm_num

/-- An age of exactly zero always gets weight 1 (for a positive maximum
age), with either decay type. -/
lemma timeWeight_zero_age (d : String) (hl ma : ℝ) (hma : 0 < ma) :
    timeWeight d hl ma 0 = 1 := by
  unfold timeWeight
  rw [if_neg (by linarith : ¬ (0:ℝ) > ma)]
  by_cases hd : d = "exponential"
  · simp [hd, Real.rpow_zero]
  · simp [hd]

/-- The weights reported by `aggregate` are the per-score loop weights. -/
lemma aggregate_weights_applied (d : String) (hl ma : ℝ) (scores : List SentScore)
    (now : ℝ) :
    (aggregate d hl ma scores now).weights_applied =
      scores.map (scoreWeight d hl ma now) := by
  cases scores with
  | nil => rfl
  | cons s rest => rfl

/-- Unfolding of the aggregated sentiment on nonempty input. -/
lemma aggregate_sentiment_eq (d : String) (hl ma now : ℝ) (s₀ : SentScore)
    (rest : List SentScore) :
    (aggregate d hl ma (s₀ :: rest) now).aggregated_sentiment =
      if ((s₀ :: rest).map (scoreWeight d hl ma now)).sum = 0 then
        ((s₀ :: rest).map SentScore.sentiment_score).sum / ((s₀ :: rest).length : ℝ)
      else
        ((s₀ :: rest).map (fun s =>
          s.sentiment_score * scoreWeight d hl ma now s)).sum /
          ((s₀ :: rest).map (scoreWeight d hl ma now)).sum := rfl

/-- Unfolding of the aggregated confidence on nonempty input. -/
lemma aggregate_confidence_eq (d : String) (hl ma now : ℝ) (s₀ : SentScore)
    (rest : List SentScore) :
    (aggregate d hl ma (s₀ :: rest) now).confidence =
      if ((s₀ :: rest).map (scoreWeight d hl ma now)).sum = 0 then
        ((s₀ :: rest).map SentScore.confidence).sum / ((s₀ :: rest).length : ℝ)
      else
        ((s₀ :: rest).map (fun s =>
          s.confidence * scoreWeight d hl ma now s)).sum /
          ((s₀ :: rest).map (scoreWeight d hl ma now)).sum := rfl

/-- C4, counterexample: with half-life 24h and max age 72h (the "1d"
configuration) at reference time 0, the two scores `(score 0, conf 1,
published at t=0)` and `(score 0.6, conf 1, published at t=24, i.e. 24
hours in the future, age −24h)` aggregate to 0.3 in the code (the future
article's weight is clamped to 1), while the claim's unclamped formula
`w = 0.5^(A/halfLife)` gives it weight 2 and aggregated score 0.4. -/
theorem C4_aggregate_counterexample :
    (aggregate "exponential" 24 72
        [SentScore.mk (some (TStamp.parsed 0)) none none 0 1,
          SentScore.mk (some (TStamp.parsed 24)) none none (3/5) 1]
        0).aggregated_sentiment = 3/10 ∧
    ((0 : ℝ) * claimedWeight 24 72 (0 - 0) + (3/5) * claimedWeight 24 72 (0 - 24)) /
        (claimedWeight 24 72 (0 - 0) + claimedWeight 24 72 (0 - 24)) = 2/5 ∧
    (3/10 : ℝ) ≠ 2/5 := by
  have hw0 : claimedWeight 24 72 (0 - 0) = 1 := by
    unfold claimedWeight
    rw [if_pos (by norm_num)]
    norm_num [Real.rpow_zero]
  have hwneg : claimedWeight 24 72 (0 - 24) = 2 := by
    unfold claimedWeight
    rw [if_pos (by norm_num)]
    rw [show ((0 : ℝ) - 24) / 24 = ((-1 : ℤ) : ℝ) by norm_num, Real.rpow_intCast]
    norm_num
  have hs₁ : scoreWeight "exponential" 24 72 0
      (SentScore.mk (some (TStamp.parsed 0)) none none 0 1) = 1 := by
    simp only [scoreWeight, effectiveStamp, Option.orElse, parseDatetime]
    rw [timeWeight_exponential_eq]
    unfold amendedWeight
    rw [if_pos (by norm_num)]
    norm_num [Real.rpow_zero]
  have hs₂ : scoreWeight "exponential" 24 72 0
      (SentScore.mk (some (TStamp.parsed 24)) none none (3/5) 1) = 1 := by
    simp only [scoreWeight, effectiveStamp, Option.orElse, parseDatetime]
    rw [timeWeight_exponential_eq]
    unfold amendedWeight
    rw [if_pos (by norm_num)]
    rw [show ((0 : ℝ) - 24) / 24 = ((-1 : ℤ) : ℝ) by norm_num, Real.rpow_intCast]
    norm_num
  refine ⟨?_, ?_, by norm_num⟩
  · rw [aggregate_sentiment_eq]
    simp only [List.map_cons, List.map_nil, List.sum_cons, List.sum_nil, hs₁, hs₂]
    norm_num
  · rw [hw0, hwneg]
    norm_num

/-- C4, amended: for a nonempty list of scores whose timestamps all parse,
`aggregate` in exponential mode assigns each score of age `A` hours the
*clamped* weight `min(1, 0.5^(A/halfLife))` when `A ≤ maxAge` and 0
otherwise — equal to the claimed `0.5^(A/halfLife)` whenever `A ≥ 0`
(i.e. no timestamp lies in the future of the reference time) — and returns
`aggregatedScore = Σ(score·w)/Σw` and `confidence = Σ(conf·w)/Σw`, falling
back to the plain arithmetic means when `Σw = 0`. -/
theorem C4_aggregate_time_weighted_formula (hl ma now : ℝ)
    (scores : List SentScore) (hne : scores ≠ [])
    (hts : ∀ s ∈ scores, ∃ t, effectiveStamp s = some (TStamp.parsed t)) :
    (aggregate "exponential" hl ma scores now).weights_applied =
      scores.map (fun s => amendedWeight hl ma (now - parsedTime s now)) ∧
    ((scores.map (fun s => amendedWeight hl ma (now - parsedTime s now))).sum ≠ 0 →
      (aggregate "exponential" hl ma scores now).aggregated_sentiment =
        (scores.map (fun s =>
          s.sentiment_score * amendedWeight hl ma (now - parsedTime s now))).sum /
          (scores.map (fun s => amendedWeight hl ma (now - parsedTime s now))).sum ∧
      (aggregate "exponential" hl ma scores now).confidence =
        (scores.map (fun s =>
          s.confidence * amendedWeight hl ma (now - parsedTime s now))).sum /
          (scores.map (fun s => amendedWeight hl ma (now - parsedTime s now))).sum) ∧
    ((scores.map (fun s => amendedWeight hl ma (now - parsedTime s now))).sum = 0 →
      (aggregate "exponential" hl ma scores now).aggregated_sentiment =
        (scores.map SentScore.sentiment_score).sum / (scores.length : ℝ) ∧
      (aggregate "exponential" hl ma scores now).confidence =
        (scores.map SentScore.confidence).sum / (scores.length : ℝ)) ∧
    (0 < hl → ∀ s ∈ scores, 0 ≤ now - parsedTime s now →
      amendedWeight hl ma (now - parsedTime s now) =
        claimedWeight hl ma (now - parsedTime s now)) := by
  have hw : ∀ s ∈ scores, scoreWeight "exponential" hl ma now s =
      amendedWeight hl ma (now - parsedTime s now) := by
    intro s hs
    obtain ⟨t, ht⟩ := hts s hs
    simp [scoreWeight, ht, parsedTime, timeWeight_exponential_eq]
  obtain ⟨s₀, rest, rfl⟩ := List.exists_cons_of_ne_nil hne
  have hmap : (s₀ :: rest).map (scoreWeight "exponential" hl ma now) =
      (s₀ :: rest).map (fun s => amendedWeight hl ma (now - parsedTime s now)) :=
    List.map_congr_left hw
  have hmap₂ : (s₀ :: rest).map (fun s =>
      s.sentiment_score * scoreWeight "exponential" hl ma now s) =
      (s₀ :: rest).map (fun s =>
        s.sentiment_score * amendedWeight hl ma (now - parsedTime s now)) :=
    List.map_congr_left (fun s hs => by rw [hw s hs])
  have hmap₃ : (s₀ :: rest).map (fun s =>
      s.confidence * scoreWeight "exponential" hl ma now s) =
      (s₀ :: rest).map (fun s =>
        s.confidence * amendedWeight hl ma (now - parsedTime s now)) :=
    List.map_congr_left (fun s hs => by rw [hw s hs])
  refine ⟨?_, ?_, ?_, ?_⟩
  · rw [aggregate_weights_applied, hmap]
  · intro hsum
    constructor
    · rw [aggregate_sentiment_eq, hmap, hmap₂, if_neg hsum]
    · rw [aggregate_confidence_eq, hmap, hmap₃, if_neg hsum]
  · intro hsum
    constructor
    · rw [aggregate_sentiment_eq, hmap, if_pos hsum]
    · rw [aggregate_confidence_eq, hmap, if_pos hsum]
  · intro hhl s _ hage
    unfold amendedWeight claimedWeight
    by_cases hma' : now - parsedTime s now ≤ ma
    · rw [if_pos hma', if_pos hma',
        min_eq_right (Real.rpow_le_one (by norm_num) (by norm_num)
          (div_nonneg hage hhl.le))]
    · rw [if_neg hma', if_neg hma']

/-- C4, witness: the amended formula applied to a single score published
exactly at the reference time with the "1d" decay parameters. -/
theorem C4_aggregate_witness :
    ([SentScore.mk (some (TStamp.parsed 0)) none none (1/2) (9/10)] :
        List SentScore) ≠ [] ∧
    (aggregate "exponential" 24 72
        [SentScore.mk (some (TStamp.parsed 0)) none none (1/2) (9/10)]
        0).weights_applied =
      [SentScore.mk (some (TStamp.parsed 0)) none none (1/2) (9/10)].map
        (fun s => amendedWeight 24 72 (0 - parsedTime s 0)) :=
  ⟨by simp,
    (C4_aggregate_time_weighted_formula 24 72 0
      [SentScore.mk (some (TStamp.parsed 0)) none none (1/2) (9/10)]
      (by simp)
      (by
        intro s hs
        rw [List.mem_singleton] at hs
        subst hs
        exact ⟨0, rfl⟩)).1⟩

/-- C10: in `aggregate`, for every time horizon and decay type, the
reported weights are the per-score loop weights, a score with no
`processed_at` or `published_at` timestamp gets weight exactly 1.0, and a
score whose timestamp fails to parse is treated as published at the
current instant and also gets weight 1 — in neither case is the article
excluded by the max-age cutoff. -/
theorem C10_missing_or_unparseable_timestamp_weight
    (timeHorizon decayType : String) (now : ℝ) (scores : List SentScore) :
    (aggregate decayType (adjustForHorizon timeHorizon).1
        (adjustForHorizon timeHorizon).2 scores now).weights_applied =
      scores.map (scoreWeight decayType (adjustForHorizon timeHorizon).1
        (adjustForHorizon timeHorizon).2 now) ∧
    ∀ s ∈ scores,
      (effectiveStamp s = none →
        scoreWeight decayType (adjustForHorizon timeHorizon).1
          (adjustForHorizon timeHorizon).2 now s = 1) ∧
      (effectiveStamp s = some TStamp.unparseable →
        scoreWeight decayType (adjustForHorizon timeHorizon).1
          (adjustForHorizon timeHorizon).2 now s = 1) := by
  refine ⟨aggregate_weights_applied _ _ _ _ _, ?_⟩
  intro s _
  constructor
  · intro h
    simp [scoreWeight, h]
  · intro h
    have hma := adjustForHorizon_maxAge_pos timeHorizon
    simp only [scoreWeight, h, parseDatetime, sub_self]
    exact timeWeight_zero_age decayType _ _ hma

/-- C10, witness: horizon "1d" with one score carrying no timestamps and
one carrying an unparseable timestamp; both get weight 1. -/
theorem C10_timestamp_weight_witness :
    (SentScore.mk none none none (1/2) (4/5)) ∈
        [SentScore.mk none none none (1/2) (4/5),
          SentScore.mk (some TStamp.unparseable) none none (-(1/5)) (9/10)] ∧
    scoreWeight "exponential" (adjustForHorizon "1d").1 (adjustForHorizon "1d").2 7
      (SentScore.mk none none none (1/2) (4/5)) = 1 ∧
    scoreWeight "exponential" (adjustForHorizon "1d").1 (adjustForHorizon "1d").2 7
      (SentScore.mk (some TStamp.unparseable) none none (-(1/5)) (9/10)) = 1 := by
  refine ⟨by simp, ?_, ?_⟩
  · exact ((C10_missing_or_unparseable_timestamp_weight "1d" "exponential" 7
      [SentScore.mk none none none (1/2) (4/5),
        SentScore.mk (some TStamp.unparseable) none none (-(1/5)) (9/10)]).2
      _ (by simp)).1 rfl
  · exact ((C10_missing_or_unparseable_timestamp_weight "1d" "exponential" 7
      [SentScore.mk none none none (1/2) (4/5),
        SentScore.mk (some TStamp.unparseable) none none (-(1/5)) (9/10)]).2
      _ (by simp)).2 rfl

/-! ### Theorems for C3 -/

/-- C3, counterexample: with timeframe "1h", a custom lookback of 10 days
and 15 loaded bars, `detect_levels` reports an insufficient-data error
(the code requires `max(30, min(50, 10)) = 30` bars), although 15 is not
below the claim's minimum `min(50, 10) = 10`. -/
theorem C3_min_data_counterexample :
    detectLevelsDataGate "1h" (some 10) (List.replicate 15 sampleBar) =
      DataGateResult.insufficientData ∧
    ¬ ((List.replicate 15 sampleBar).length <
        claimedMinRequiredBars "1h" 10) := by
  constructor
  · decide
  · simp [claimedMinRequiredBars]
    norm_num

/-- C3, amended: for a nonempty dataset, `detect_levels` reports an
insufficient-data error precisely when the number of loaded bars is below
the minimum requirement, which is `max(50, ⌊0.6·lookbackDays⌋)` for
timeframe "1d" and `max(30, min(50, lookbackDays))` for every other
timeframe, with `lookbackDays` the custom lookback when given and the
per-timeframe default otherwise; otherwise detection proceeds.  (An empty
dataset is reported as a distinct no-data error.) -/
theorem C3_min_data_gate (timeframe : String) (lookbackDays : Option ℕ)
    (bars : List Bar) (hne : bars ≠ []) :
    (detectLevelsDataGate timeframe lookbackDays bars =
        DataGateResult.insufficientData ↔
      bars.length <
        minRequiredBars timeframe (lookbackDays.getD (timeframeDaysMap timeframe))) ∧
    (detectLevelsDataGate timeframe lookbackDays bars = DataGateResult.proceed ↔
      minRequiredBars timeframe (lookbackDays.getD (timeframeDaysMap timeframe)) ≤
        bars.length) := by
  have hlen : bars.length ≠ 0 := by simpa using hne
  unfold detectLevelsDataGate
  rw [if_neg hlen]
  constructor
  · constructor
    · intro h
      by_contra hlt
      rw [if_neg hlt] at h
      exact DataGateResult.noConfusion h
    · intro h
      rw [if_pos h]
  · constructor
    · intro h
      by_contra hlt
      rw [if_pos (by omega)] at h
      exact DataGateResult.noConfusion h
    · intro h
      rw [if_neg (by omega)]

/-! ### Theorems for C7 -/

/-- The longest common subsequence of a string with itself is the whole
string. -/
lemma lcsLength_self (l : List Char) : lcsLength l l = l.length := by
  induction l with
  | nil => simp [lcsLength]
  | cons a t ih =>
    simp [lcsLength, ih]
    omega

/-- Identical strings have similarity 1. -/
lemma calculateSimilarity_self (s : String) : calculateSimilarity s s = 1 := by
  unfold calculateSimilarity
  set l := s.toList.map Char.toLower with hl
  by_cases h : l.length + l.length = 0
  · rw [if_pos h]
  · rw [if_neg h, lcsLength_self]
    have hn : (l.length : ℚ) ≠ 0 := by
      have hl0 : l.length ≠ 0 := by omega
      exact_mod_cast hl0
    push_cast
    field_simp
    ring

/-- C7, counterexample: with `prefer_source = "R"`, `remove_duplicates` is
not idempotent.  On `[A, C, B]` with `A = (url u1, no title, source X)`,
`C = (url u2, title "aa", source Y)`, `B = (url u1, title "aa", source R)`:
the first pass keeps `A`, keeps `C` (no shared URL or text with `A`), then
replaces `A` by the preferred-source duplicate `B`, yielding `[B, C]`; the
second pass detects `C` as a title-duplicate of `B` and drops it, yielding
`[B]`. -/
theorem C7_remove_duplicates_counterexample :
    removeDuplicates (some "R") (9/10) (85/100)
        (removeDuplicates (some "R") (9/10) (85/100)
          [⟨"u1", "", "X", "", ""⟩, ⟨"u2", "aa", "Y", "", ""⟩,
            ⟨"u1", "aa", "R", "", ""⟩]) ≠
      removeDuplicates (some "R") (9/10) (85/100)
        [⟨"u1", "", "X", "", ""⟩, ⟨"u2", "aa", "Y", "", ""⟩,
          ⟨"u1", "aa", "R", "", ""⟩] := by
  have hsim := calculateSimilarity_self "aa"
  have h1 : removeDuplicates (some "R") (9/10) (85/100)
      [⟨"u1", "", "X", "", ""⟩, ⟨"u2", "aa", "Y", "", ""⟩,
        ⟨"u1", "aa", "R", "", ""⟩] =
      [⟨"u1", "aa", "R", "", ""⟩, ⟨"u2", "aa", "Y", "", ""⟩] := by
    simp [removeDuplicates, removeDuplicatesGo, isDuplicate, prefersArticle,
      List.findIdx?_cons, hsim]
  have h2 : removeDuplicates (some "R") (9/10) (85/100)
      [⟨"u1", "aa", "R", "", ""⟩, ⟨"u2", "aa", "Y", "", ""⟩] =
      [⟨"u1", "aa", "R", "", ""⟩] := by
    simp [removeDuplicates, removeDuplicatesGo, isDuplicate, prefersArticle,
      List.findIdx?_cons, hsim]
    norm_num
  rw [h1, h2]
  simp

/-- The pairwise invariant maintained by the duplicate-removal loop when no
preferred source is configured: every kept article is not a duplicate of
any earlier kept article. -/
lemma removeDuplicatesGo_pairwise (tT cT : ℚ) (rest : List Article) :
    ∀ acc : List Article,
      acc.Pairwise (fun a b => isDuplicate tT cT b a = false) →
      (removeDuplicatesGo none tT cT acc rest).Pairwise
        (fun a b => isDuplicate tT cT b a = false) := by
  induction rest with
  | nil => exact fun acc hacc => hacc
  | cons a rest ih =>
    intro acc hacc
    rw [removeDuplicatesGo]
    cases hf : acc.findIdx? (fun u => isDuplicate tT cT a u) with
    | none =>
      refine ih (acc ++ [a]) ?_
      rw [List.pairwise_append]
      refine ⟨hacc, List.pairwise_singleton _ _, ?_⟩
      intro x hx y hy
      rw [List.mem_singleton] at hy
      subst hy
      exact List.findIdx?_eq_none_iff.mp hf x hx
    | some j =>
      exact ih acc hacc

/-- Running the duplicate-removal loop (without a preferred source) over a
list that already satisfies the pairwise invariant returns it unchanged. -/
lemma removeDuplicatesGo_of_pairwise (tT cT : ℚ) (rest : List Article) :
    ∀ acc : List Article,
      (acc ++ rest).Pairwise (fun a b => isDuplicate tT cT b a = false) →
      removeDuplicatesGo none tT cT acc rest = acc ++ rest := by
  induction rest with
  | nil => intro acc _; simp [removeDuplicatesGo]
  | cons a rest ih =>
    intro acc h
    have hnone : acc.findIdx? (fun u => isDuplicate tT cT a u) = none := by
      rw [List.findIdx?_eq_none_iff]
      intro x hx
      exact (List.pairwise_append.mp h).2.2 x hx a (List.mem_cons_self a rest)
    rw [removeDuplicatesGo, hnone]
    have h' : ((acc ++ [a]) ++ rest).Pairwise
        (fun a b => isDuplicate tT cT b a = false) := by
      simpa [List.append_assoc] using h
    rw [ih (acc ++ [a]) h']
    simp

/-- C7, amended: without a configured `prefer_source`, `remove_duplicates`
is idempotent for any thresholds (with a preferred source it need not be:
a preferred-source replacement can retroactively create a duplicate pair
among the kept articles). -/
theorem C7_remove_duplicates_idempotent_without_prefer (tT cT : ℚ)
    (articles : List Article) :
    removeDuplicates none tT cT (removeDuplicates none tT cT articles) =
      removeDuplicates none tT cT articles := by
  have hp : (removeDuplicates none tT cT articles).Pairwise
      (fun a b => isDuplicate tT cT b a = false) :=
    removeDuplicatesGo_pairwise tT cT articles [] List.Pairwise.nil
  have := removeDuplicatesGo_of_pairwise tT cT
    (removeDuplicates none tT cT articles) [] (by simpa using hp)
  simpa [removeDuplicates] using this

/-! ### Theorems for C8 -/

/-- An empty needle is contained in every haystack. -/
lemma containsSub_nil_needle (h : List Char) : containsSub [] h = true := by
  cases h <;> simp [containsSub, List.isPrefixOf]

/-- Containment in the right part of a concatenation. -/
lemma containsSub_append_right (n h₁ h₂ : List Char)
    (h : containsSub n h₂ = true) : containsSub n (h₁ ++ h₂) = true := by
  induction h₁ with
  | nil => simpa using h
  | cons a t ih =>
    rw [List.cons_append]
    simp only [containsSub, Bool.or_eq_true]
    exact Or.inr ih

/-- Containment in the left part of a concatenation. -/
lemma containsSub_append_left (n h₁ h₂ : List Char)
    (h : containsSub n h₁ = true) : containsSub n (h₁ ++ h₂) = true := by
  induction h₁ with
  | nil =>
    simp only [containsSub, Bool.or_eq_true] at h
    rcases h with h | h
    · cases n with
      | nil => simpa using containsSub_nil_needle h₂
      | cons c cs => simp [List.isPrefixOf] at h
    · exact absurd h (by simp)
  | cons a t ih =>
    simp only [containsSub, Bool.or_eq_true] at h
    rw [List.cons_append]
    simp only [containsSub, Bool.or_eq_true]
    rcases h with h | h
    · refine Or.inl ?_
      rw [List.isPrefixOf_iff_prefix] at h ⊢
      exact h.trans (List.prefix_append (a :: t) h₂)
    · exact Or.inr (ih h)

/-- Lowercasing distributes over string concatenation. -/
lemma lowerStr_append (a b : String) :
    lowerStr (a ++ b) = lowerStr a ++ lowerStr b := by
  simp [lowerStr, String.toList]

/-- C8: `calculate_relevance` always returns a score in `[0,1]`, and
whenever any keyword of the symbol's keyword table occurs
(case-insensitively) in the article's title, content or summary, the score
is at least 0.35. -/
theorem C8_relevance_range_and_keyword_floor (article : Article) (symbol : String) :
    (0 ≤ calculateRelevance article symbol ∧ calculateRelevance article symbol ≤ 1) ∧
    ((∃ k ∈ getKeywords symbol,
        containsSub (lowerStr k) (lowerStr article.title) = true ∨
          containsSub (lowerStr k) (lowerStr article.content) = true ∨
          containsSub (lowerStr k) (lowerStr article.summary) = true) →
      (35/100 : ℚ) ≤ calculateRelevance article symbol) := by
  have hkw : getKeywords symbol ≠ [] := by simp [getKeywords]
  constructor
  · unfold calculateRelevance
    rw [if_neg hkw]
    exact ⟨le_min (le_max_right _ _) zero_le_one, min_le_right _ _⟩
  · rintro ⟨k, hk, hocc⟩
    have hany : (getKeywords symbol).any (fun k =>
        containsSub (lowerStr k)
          (lowerStr (article.title ++ article.content ++ article.summary))) = true := by
      rw [List.any_eq_true]
      refine ⟨k, hk, ?_⟩
      rcases hocc with h | h | h
      · rw [lowerStr_append, lowerStr_append]
        exact containsSub_append_left _ _ _ (containsSub_append_left _ _ _ h)
      · rw [lowerStr_append, lowerStr_append]
        exact containsSub_append_left _ _ _ (containsSub_append_right _ _ _ h)
      · rw [lowerStr_append]
        exact containsSub_append_right _ _ _ h
    unfold calculateRelevance
    rw [if_neg hkw]
    simp only [hany, if_true]
    refine le_min (le_trans (le_max_right _ _) (le_max_left _ _)) (by norm_num)

/-- C8, witness: an article titled "Apple event" for symbol AAPL contains
the keyword "Apple" in its title and scores at least 0.35. -/
theorem C8_relevance_witness :
    (∃ k ∈ getKeywords "AAPL",
        containsSub (lowerStr k)
          (lowerStr (Article.mk "u" "Apple event" "src" "" "").title) = true ∨
          containsSub (lowerStr k)
            (lowerStr (Article.mk "u" "Apple event" "src" "" "").content) = true ∨
          containsSub (lowerStr k)
            (lowerStr (Article.mk "u" "Apple event" "src" "" "").summary) = true) ∧
    (35/100 : ℚ) ≤ calculateRelevance (Article.mk "u" "Apple event" "src" "" "") "AAPL" :=
  ⟨⟨"Apple", by decide, Or.inl (by decide)⟩,
    (C8_relevance_range_and_keyword_floor (Article.mk "u" "Apple event" "src" "" "")
      "AAPL").2 ⟨"Apple", by decide, Or.inl (by decide)⟩⟩

/-! ### Theorems for C5 -/

/-- C5: with the default configuration, `calculate_impact` computes
`impactScore = 0.4·|aggregated| + 0.3·min(count/20, 1) + 0.2·recency`
(0.15 when recency is absent) `+ 0.1·confidence` (0.05 when confidence is
absent), and returns "High" iff `impactScore ≥ 0.7` and `count ≥ 10`, else
"Medium" iff `impactScore ≥ 0.4` and `count ≥ 5`, else "Low". -/
theorem C5_impact_score_classification (aggregated : ℚ) (count : ℕ)
    (recency confidence : Option ℚ) :
    calculateImpact (7/10) (4/10) 10 5 aggregated count recency confidence =
      (let score : ℚ := (4/10) * |aggregated| + (3/10) * min ((count : ℚ) / 20) 1 +
          (match recency with | some r => (2/10) * r | none => (15/100 : ℚ)) +
          (match confidence with | some c => (1/10) * c | none => (5/100 : ℚ))
       if score ≥ 7/10 ∧ count ≥ 10 then "High"
       else if score ≥ 4/10 ∧ count ≥ 5 then "Medium"
       else "Low") := by
  rcases recency with _ | r <;> rcases confidence with _ | c <;>
    simp only [calculateImpact] <;> ring_nf

/-- C3, witness: the amended gate characterisation applied to 60 bars of
daily data with the default lookback (730 days, so 438 bars required). -/
theorem C3_min_data_gate_witness :
    (List.replicate 60 sampleBar) ≠ [] ∧
    (detectLevelsDataGate "1d" none (List.replicate 60 sampleBar) =
        DataGateResult.insufficientData ↔
      (List.replicate 60 sampleBar).length <
        minRequiredBars "1d" ((none : Option ℕ).getD (timeframeDaysMap "1d"))) :=
  ⟨by simp, (C3_min_data_gate "1d" none _ (by simp)).1⟩

end Tick
